import Mathlib

set_option maxRecDepth 100000

/-!
# Verification of the product aggregation pipeline

Shallow embedding of the aggregation pipeline of `ai-product-compare`
(`src/services/dataProcessor.ts`, `src/utils/helpers.ts`, and the
`POST /api/analyze` route handler), together with proofs and refutations
of the specification's testable properties.

JavaScript numbers are modelled as exact rationals (`ℚ`); all quantities
the pipeline manipulates (prices, ratings, Jaccard ratios, scores) are
small exact values for which IEEE-754 double arithmetic agrees with `ℚ`.
Optional TypeScript fields (`field?: T`) are modelled as `Option T`;
JavaScript truthiness of numbers (`0` falsy) and strings (`""` falsy) is
made explicit.  Strings are treated as sequences of Unicode scalar
values, with UTF-8 encoding made explicit where byte-level hashing
occurs.
-/

/-- JS truthiness for an optional string: `undefined` and `""` are falsy. -/
def strTruthy : Option String → Prop
  | none => False
  | some s => s ≠ ""

instance : DecidablePred strTruthy := fun o => by
  cases o <;> simp [strTruthy] <;> infer_instance

/-- JS `a || b` on numbers: `a` when non-zero, else `b`. -/
def jsOr (a b : ℚ) : ℚ := if a = 0 then b else a

@[simp] theorem jsOr_zero_right (a : ℚ) : jsOr a 0 = a := by
  by_cases h : a = 0 <;> simp [jsOr, h]

/-- The `source` field of a `Product`: TypeScript union `'google' | 'amazon'`. -/
inductive Source where
  | google
  | amazon
deriving DecidableEq, Repr

/-- The canonical `Product` record (`src/types`, `export interface Product`).
`technicalSpecs` is never read or written by the aggregation pipeline and is
omitted.  Optional fields are `Option`; numeric fields are exact rationals. -/
structure Product where
  id : String
  title : String
  description : String
  price : ℚ
  currency : String
  image : String
  images : Option (List String)
  rating : ℚ
  reviewCount : ℚ
  features : List String
  pros : Option (List String)
  cons : Option (List String)
  source : Source
  link : String
  affiliateLink : Option String
  asin : Option String
  brand : Option String
  category : Option String
  availability : Option String
  originalPrice : Option ℚ
  discount : Option ℚ
deriving DecidableEq, Repr

/-- A `Product` with every required field at the Normalizer's default and
every optional field absent; base point for concrete test inputs. -/
def defaultProduct : Product where
  id := ""
  title := ""
  description := ""
  price := 0
  currency := "USD"
  image := ""
  images := none
  rating := 0
  reviewCount := 0
  features := []
  pros := none
  cons := none
  source := Source.google
  link := ""
  affiliateLink := none
  asin := none
  brand := none
  category := none
  availability := none
  originalPrice := none
  discount := none

/-- Collapse each maximal run of whitespace characters to its final
character (any whitespace character), leaving other characters alone. -/
def collapseWsRuns : List Char → List Char
  | [] => []
  | [c] => [c]
  | c1 :: c2 :: rest =>
    if c1.isWhitespace ∧ c2.isWhitespace then collapseWsRuns (c2 :: rest)
    else c1 :: collapseWsRuns (c2 :: rest)

/-- Split at each (single) whitespace character, keeping empty pieces. -/
def splitAtWs : List Char → String → List String
  | [], cur => [cur]
  | c :: rest, cur =>
    if c.isWhitespace then cur :: splitAtWs rest ""
    else splitAtWs rest (cur.push c)

/-- JS `str.split(/\s+/)`: the pieces of `str` between maximal nonempty
whitespace runs, including an empty piece at the start (resp. end) when the
string starts (resp. ends) with whitespace, and `[""]` on the empty string.
Implemented by collapsing each whitespace run to one character and splitting
there. -/
def jsSplitWs (s : String) : List String := splitAtWs (collapseWsRuns s.toList) ""

/-- JS `Set` insertion: keep each element not seen before, in order. -/
def jsSetDedupGo {α : Type} [DecidableEq α] (seen : List α) : List α → List α
  | [] => []
  | x :: xs =>
    if x ∈ seen then jsSetDedupGo seen xs
    else x :: jsSetDedupGo (x :: seen) xs

/-- JS `Array.from(new Set(xs))`: first-occurrence-ordered deduplication. -/
def jsSetDedup {α : Type} [DecidableEq α] (l : List α) : List α := jsSetDedupGo [] l

theorem jsSetDedupGo_toFinset {α : Type} [DecidableEq α] (seen l : List α) :
    (jsSetDedupGo seen l).toFinset = l.toFinset \ seen.toFinset := by
  induction l generalizing seen with
  | nil => simp [jsSetDedupGo]
  | cons x xs ih =>
    rw [jsSetDedupGo]
    split
    · rw [ih]
      ext a
      by_cases ha : a = x <;> simp_all
    · rw [List.toFinset_cons, ih]
      ext a
      by_cases ha : a = x <;> simp_all

theorem jsSetDedup_toFinset {α : Type} [DecidableEq α] (l : List α) :
    (jsSetDedup l).toFinset = l.toFinset := by
  rw [jsSetDedup, jsSetDedupGo_toFinset]
  simp

theorem mem_jsSetDedupGo {α : Type} [DecidableEq α] {a : α} (seen l : List α) :
    a ∈ jsSetDedupGo seen l ↔ a ∈ l ∧ a ∉ seen := by
  induction l generalizing seen with
  | nil => simp [jsSetDedupGo]
  | cons x xs ih =>
    rw [jsSetDedupGo]
    split
    · rw [ih]
      by_cases hax : a = x <;> simp_all
    · by_cases hax : a = x <;> simp_all [ih]

theorem jsSetDedupGo_nodup {α : Type} [DecidableEq α] (seen l : List α) :
    (jsSetDedupGo seen l).Nodup := by
  induction l generalizing seen with
  | nil => simp [jsSetDedupGo]
  | cons x xs ih =>
    rw [jsSetDedupGo]
    split
    · exact ih seen
    · refine List.Nodup.cons ?_ (ih (x :: seen))
      intro hmem
      rcases (mem_jsSetDedupGo (x :: seen) xs).mp hmem with ⟨-, hns⟩
      exact hns (List.mem_cons_self x seen)

theorem jsSetDedup_nodup {α : Type} [DecidableEq α] (l : List α) :
    (jsSetDedup l).Nodup := jsSetDedupGo_nodup [] l

theorem jsSetDedup_length {α : Type} [DecidableEq α] (l : List α) :
    ((jsSetDedup l).length : ℚ) = (l.toFinset.card : ℚ) := by
  rw [← jsSetDedup_toFinset l, List.toFinset_card_of_nodup (jsSetDedup_nodup l)]

/-- `String.prototype.toLowerCase()` for the ASCII range (the only characters
the pipeline's titles contain), as a plain character map. -/
def jsToLowerCase (s : String) : String := String.mk (s.toList.map Char.toLower)

/-- `DataProcessor.calculateSimilarity` (dataProcessor.ts:53-61): Jaccard
similarity of the whitespace-token sets of the two strings, as an exact
rational.  A JS `Set` is an insertion-ordered collection of distinct
elements (`jsSetDedup`); `size` is its length. -/
def calculateSimilarity (str1 str2 : String) : ℚ :=
  let words1 := jsSetDedup (jsSplitWs str1)
  let words2 := jsSetDedup (jsSplitWs str2)
  let intersection := jsSetDedup (words1.filter fun x => decide (x ∈ words2))
  let union := jsSetDedup (words1 ++ words2)
  (intersection.length : ℚ) / (union.length : ℚ)

theorem calculateSimilarity_eq_finset (s t : String) :
    calculateSimilarity s t =
      (((jsSplitWs s).toFinset ∩ (jsSplitWs t).toFinset).card : ℚ) /
        (((jsSplitWs s).toFinset ∪ (jsSplitWs t).toFinset).card : ℚ) := by
  have h1 : ((jsSetDedup (jsSplitWs s)).filter
      fun x => decide (x ∈ jsSetDedup (jsSplitWs t))).toFinset =
      (jsSplitWs s).toFinset ∩ (jsSplitWs t).toFinset := by
    ext a
    simp only [List.mem_toFinset, List.mem_filter, Finset.mem_inter, decide_eq_true_eq,
      mem_jsSetDedupGo, jsSetDedup]
    tauto
  have h2 : (jsSetDedup (jsSplitWs s) ++ jsSetDedup (jsSplitWs t)).toFinset =
      (jsSplitWs s).toFinset ∪ (jsSplitWs t).toFinset := by
    rw [List.toFinset_append, jsSetDedup_toFinset, jsSetDedup_toFinset]
  simp only [calculateSimilarity]
  rw [jsSetDedup_length, jsSetDedup_length, h1, h2]

theorem calculateSimilarity_comm (s t : String) :
    calculateSimilarity s t = calculateSimilarity t s := by
  rw [calculateSimilarity_eq_finset, calculateSimilarity_eq_finset,
    Finset.inter_comm, Finset.union_comm]

/-! ## 32-bit words as `Nat` with explicit reduction mod `2^32`, byte strings,
and the two digest functions the pipeline calls (`crypto.createHash('md5')`
for dedup keys, `crypto.createHash('sha256')` for cache keys). -/

/-- Reduce mod `2^32`. -/
def w32 (n : Nat) : Nat := n % 4294967296

/-- 32-bit addition. -/
def add32 (a b : Nat) : Nat := (a + b) % 4294967296

/-- 32-bit bitwise complement (of a word `< 2^32`). -/
def not32 (x : Nat) : Nat := Nat.xor x 4294967295

/-- 32-bit left rotation by `s` of a word `< 2^32`. -/
def rotl32 (s x : Nat) : Nat := ((x <<< s) ||| (x >>> (32 - s))) % 4294967296

/-- 32-bit right rotation by `s` of a word `< 2^32`. -/
def rotr32 (s x : Nat) : Nat := ((x >>> s) ||| (x <<< (32 - s))) % 4294967296

/-- UTF-8 encoding of a string as a list of byte values. -/
def utf8Bytes (s : String) : List Nat :=
  (s.toList.map fun c =>
    let n := c.toNat
    if n < 128 then [n]
    else if n < 2048 then [192 + n / 64, 128 + n % 64]
    else if n < 65536 then [224 + n / 4096, 128 + (n / 64) % 64, 128 + n % 64]
    else [240 + n / 262144, 128 + (n / 4096) % 64, 128 + (n / 64) % 64, 128 + n % 64]).flatten

/-- Lower-case hex digit for a nibble. -/
def hexDigit (n : Nat) : Char := if n < 10 then Char.ofNat (48 + n) else Char.ofNat (87 + n)

/-- Two lower-case hex digits for a byte. -/
def byteHex (b : Nat) : String := String.mk [hexDigit (b / 16 % 16), hexDigit (b % 16)]

/-- Lower-case hex rendering of a byte list (`digest('hex')`). -/
def bytesToHex (bs : List Nat) : String := String.join (bs.map byteHex)

/-- Split a byte list into 64-byte blocks (fuel-driven; one unit of fuel per
block suffices since every recursive step consumes 64 bytes). -/
def chunks64Go : Nat → List Nat → List (List Nat)
  | 0, _ => []
  | fuel + 1, l => if l.isEmpty then [] else l.take 64 :: chunks64Go fuel (l.drop 64)

/-- Split a byte list into 64-byte blocks. -/
def chunks64 (l : List Nat) : List (List Nat) := chunks64Go (l.length + 1) l

/-- The number of zero bytes Merkle–Damgård padding inserts after the `0x80`
byte so the padded length is `56 mod 64`. -/
def padZeroCount (len : Nat) : Nat := (120 - (len + 1) % 64) % 64

/-- 64-bit little-endian byte rendering (MD5 length field). -/
def le64 (n : Nat) : List Nat := (List.range 8).map fun i => n >>> (8 * i) % 256

/-- 64-bit big-endian byte rendering (SHA-256 length field). -/
def be64 (n : Nat) : List Nat := (List.range 8).map fun i => n >>> (8 * (7 - i)) % 256

/-- Little-endian 32-bit words of a 64-byte block (MD5). -/
def wordsLE (block : List Nat) : List Nat :=
  (List.range 16).map fun j =>
    block.getD (4 * j) 0 + block.getD (4 * j + 1) 0 * 256 +
      block.getD (4 * j + 2) 0 * 65536 + block.getD (4 * j + 3) 0 * 16777216

/-- Big-endian 32-bit words of a 64-byte block (SHA-256). -/
def wordsBE (block : List Nat) : List Nat :=
  (List.range 16).map fun j =>
    block.getD (4 * j) 0 * 16777216 + block.getD (4 * j + 1) 0 * 65536 +
      block.getD (4 * j + 2) 0 * 256 + block.getD (4 * j + 3) 0

/-- Little-endian bytes of a 32-bit word. -/
def wordLEBytes (n : Nat) : List Nat := [n % 256, n / 256 % 256, n / 65536 % 256, n / 16777216 % 256]

/-- Big-endian bytes of a 32-bit word. -/
def wordBEBytes (n : Nat) : List Nat := [n / 16777216 % 256, n / 65536 % 256, n / 256 % 256, n % 256]

/-- The MD5 per-round sine-derived constants. -/
def md5K : List Nat :=
  [3614090360, 3905402710, 606105819, 3250441966,
   4118548399, 1200080426, 2821735955, 4249261313,
   1770035416, 2336552879, 4294925233, 2304563134,
   1804603682, 4254626195, 2792965006, 1236535329,
   4129170786, 3225465664, 643717713, 3921069994,
   3593408605, 38016083, 3634488961, 3889429448,
   568446438, 3275163606, 4107603335, 1163531501,
   2850285829, 4243563512, 1735328473, 2368359562,
   4294588738, 2272392833, 1839030562, 4259657740,
   2763975236, 1272893353, 4139469664, 3200236656,
   681279174, 3936430074, 3572445317, 76029189,
   3654602809, 3873151461, 530742520, 3299628645,
   4096336452, 1126891415, 2878612391, 4237533241,
   1700485571, 2399980690, 4293915773, 2240044497,
   1873313359, 4264355552, 2734768916, 1309151649,
   4149444226, 3174756917, 718787259, 3951481745]

/-- The MD5 per-round left-rotation amounts. -/
def md5S : List Nat :=
  [7, 12, 17, 22, 7, 12, 17, 22, 7, 12, 17, 22, 7, 12, 17, 22,
   5, 9, 14, 20, 5, 9, 14, 20, 5, 9, 14, 20, 5, 9, 14, 20,
   4, 11, 16, 23, 4, 11, 16, 23, 4, 11, 16, 23, 4, 11, 16, 23,
   6, 10, 15, 21, 6, 10, 15, 21, 6, 10, 15, 21, 6, 10, 15, 21]

/-- MD5 working state. -/
structure MD5State where
  a : Nat
  b : Nat
  c : Nat
  d : Nat
deriving Repr

/-- One MD5 round of block words `M` at round index `i`. -/
def md5Round (M : List Nat) (st : MD5State) (i : Nat) : MD5State :=
  let f :=
    if i < 16 then (st.b &&& st.c) ||| (not32 st.b &&& st.d)
    else if i < 32 then (st.d &&& st.b) ||| (not32 st.d &&& st.c)
    else if i < 48 then Nat.xor (Nat.xor st.b st.c) st.d
    else Nat.xor st.c (st.b ||| not32 st.d)
  let g :=
    if i < 16 then i
    else if i < 32 then (5 * i + 1) % 16
    else if i < 48 then (3 * i + 5) % 16
    else (7 * i) % 16
  let tmp := add32 (add32 (add32 st.a f) (md5K.getD i 0)) (M.getD g 0)
  ⟨st.d, add32 st.b (rotl32 (md5S.getD i 0) tmp), st.b, st.c⟩

/-- MD5 compression of one 64-byte block. -/
def md5Block (st : MD5State) (block : List Nat) : MD5State :=
  let M := wordsLE block
  let r := (List.range 64).foldl (md5Round M) st
  ⟨add32 st.a r.a, add32 st.b r.b, add32 st.c r.c, add32 st.d r.d⟩

/-- MD5 digest of a byte list, as 16 bytes. -/
def md5Bytes (msg : List Nat) : List Nat :=
  let padded := msg ++ [128] ++ List.replicate (padZeroCount msg.length) 0 ++
    le64 ((8 * msg.length) % 18446744073709551616)
  let st := (chunks64 padded).foldl md5Block
    ⟨1732584193, 4023233417, 2562383102, 271733878⟩
  wordLEBytes st.a ++ wordLEBytes st.b ++ wordLEBytes st.c ++ wordLEBytes st.d

/-- `crypto.createHash('md5').update(s).digest('hex')`. -/
def md5Hex (s : String) : String := bytesToHex (md5Bytes (utf8Bytes s))

/-- The SHA-256 round constants. -/
def sha256K : List Nat :=
  [1116352408, 1899447441, 3049323471, 3921009573, 961987163, 1508970993, 2453635748, 2870763221,
   3624381080, 310598401, 607225278, 1426881987, 1925078388, 2162078206, 2614888103, 3248222580,
   3835390401, 4022224774, 264347078, 604807628, 770255983, 1249150122, 1555081692, 1996064986,
   2554220882, 2821834349, 2952996808, 3210313671, 3336571891, 3584528711, 113926993, 338241895,
   666307205, 773529912, 1294757372, 1396182291, 1695183700, 1986661051, 2177026350, 2456956037,
   2730485921, 2820302411, 3259730800, 3345764771, 3516065817, 3600352804, 4094571909, 275423344,
   430227734, 506948616, 659060556, 883997877, 958139571, 1322822218, 1537002063, 1747873779,
   1955562222, 2024104815, 2227730452, 2361852424, 2428436474, 2756734187, 3204031479, 3329325298]

/-- SHA-256 working state (eight 32-bit registers). -/
structure SHA256State where
  a : Nat
  b : Nat
  c : Nat
  d : Nat
  e : Nat
  f : Nat
  g : Nat
  hh : Nat
deriving Repr

/-- Extend 16 block words to the 64-word SHA-256 message schedule. -/
def sha256Extend (w : List Nat) : List Nat :=
  (List.range 48).foldl (fun w i =>
    let w15 := w.getD (i + 1) 0
    let w2 := w.getD (i + 14) 0
    let s0 := Nat.xor (Nat.xor (rotr32 7 w15) (rotr32 18 w15)) (w15 >>> 3)
    let s1 := Nat.xor (Nat.xor (rotr32 17 w2) (rotr32 19 w2)) (w2 >>> 10)
    w ++ [add32 (add32 (w.getD i 0) s0) (add32 (w.getD (i + 9) 0) s1)]) w

/-- One SHA-256 round with schedule `w` at round index `i`. -/
def sha256Round (w : List Nat) (st : SHA256State) (i : Nat) : SHA256State :=
  let s1 := Nat.xor (Nat.xor (rotr32 6 st.e) (rotr32 11 st.e)) (rotr32 25 st.e)
  let ch := Nat.xor (st.e &&& st.f) (not32 st.e &&& st.g)
  let t1 := add32 (add32 (add32 st.hh s1) (add32 ch (sha256K.getD i 0))) (w.getD i 0)
  let s0 := Nat.xor (Nat.xor (rotr32 2 st.a) (rotr32 13 st.a)) (rotr32 22 st.a)
  let maj := Nat.xor (Nat.xor (st.a &&& st.b) (st.a &&& st.c)) (st.b &&& st.c)
  let t2 := add32 s0 maj
  ⟨add32 t1 t2, st.a, st.b, st.c, add32 st.d t1, st.e, st.f, st.g⟩

/-- SHA-256 compression of one 64-byte block. -/
def sha256Block (st : SHA256State) (block : List Nat) : SHA256State :=
  let w := sha256Extend (wordsBE block)
  let r := (List.range 64).foldl (sha256Round w) st
  ⟨add32 st.a r.a, add32 st.b r.b, add32 st.c r.c, add32 st.d r.d,
   add32 st.e r.e, add32 st.f r.f, add32 st.g r.g, add32 st.hh r.hh⟩

/-- SHA-256 digest of a byte list, as 32 bytes. -/
def sha256Bytes (msg : List Nat) : List Nat :=
  let padded := msg ++ [128] ++ List.replicate (padZeroCount msg.length) 0 ++
    be64 ((8 * msg.length) % 18446744073709551616)
  let st := (chunks64 padded).foldl sha256Block
    ⟨1779033703, 3144134277, 1013904242, 2773480762, 1359893119, 2600822924, 528734635, 1541459225⟩
  wordBEBytes st.a ++ wordBEBytes st.b ++ wordBEBytes st.c ++ wordBEBytes st.d ++
    wordBEBytes st.e ++ wordBEBytes st.f ++ wordBEBytes st.g ++ wordBEBytes st.hh

/-- `crypto.createHash('sha256').update(s).digest('hex')`. -/
def sha256Hex (s : String) : String := bytesToHex (sha256Bytes (utf8Bytes s))


/-! ## `DataProcessor.mergeProducts` (dataProcessor.ts:63-98)

The JS body mutates a copy `merged` of `product1` through six sequential
`if` blocks; each block is one Lean step function, composed in source order. -/

/-- Rating/reviewCount block (lines 66-72): `!merged.rating && product2.rating`
adopts the other's rating and review count; if both ratings are non-zero they
are averaged and the larger review count is kept. -/
def mergeRating (m p2 : Product) : Product :=
  if m.rating = 0 ∧ p2.rating ≠ 0 then
    { m with rating := p2.rating, reviewCount := p2.reviewCount }
  else if p2.rating ≠ 0 ∧ m.rating ≠ 0 then
    { m with rating := (m.rating + p2.rating) / 2,
             reviewCount := max m.reviewCount p2.reviewCount }
  else m

/-- Features block (lines 74-76): replace by the first-occurrence-deduplicated
concatenation only when the other's list is strictly longer. -/
def mergeFeatures (m p2 : Product) : Product :=
  if m.features.length < p2.features.length then
    { m with features := jsSetDedup (m.features ++ p2.features) }
  else m

/-- Description block (lines 78-80): fill only when the base description is
falsy (empty) and the other's is truthy. -/
def mergeDescription (m p2 : Product) : Product :=
  if m.description = "" ∧ p2.description ≠ "" then
    { m with description := p2.description }
  else m

/-- Images block (lines 82-84): union (first-occurrence dedup) when the other
record carries a non-empty image list. -/
def mergeImages (m p2 : Product) : Product :=
  match p2.images with
  | none => m
  | some imgs =>
    if 0 < imgs.length then
      { m with images := some (jsSetDedup (m.images.getD [] ++ imgs)) }
    else m

/-- Affiliate block (lines 86-89): an amazon-sourced record with a truthy
affiliate link overwrites affiliate link and ASIN. -/
def mergeAffiliate (m p2 : Product) : Product :=
  if p2.source = Source.amazon ∧ strTruthy p2.affiliateLink then
    { m with affiliateLink := p2.affiliateLink, asin := p2.asin }
  else m

/-- Pricing block (lines 91-95): adopt the other's price/originalPrice/discount
triple when the other's price is truthy and the base price is falsy or larger. -/
def mergePrice (m p2 : Product) : Product :=
  if p2.price ≠ 0 ∧ (m.price = 0 ∨ p2.price < m.price) then
    { m with price := p2.price, originalPrice := p2.originalPrice,
             discount := p2.discount }
  else m

/-- `DataProcessor.mergeProducts`: the six blocks applied in source order to
`merged = {...product1}`. -/
def mergeProducts (product1 product2 : Product) : Product :=
  mergePrice (mergeAffiliate (mergeImages (mergeDescription
    (mergeFeatures (mergeRating product1 product2) product2) product2) product2) product2) product2

/-! ## `DataProcessor.generateProductKey` (dataProcessor.ts:100-110) -/

/-- Characters kept by `replace(/[^a-z0-9]/g, '')`. -/
def isLowerAlnum (c : Char) : Bool := ('a' ≤ c && c ≤ 'z') || ('0' ≤ c && c ≤ '9')

/-- Lower-case the title, strip non-`[a-z0-9]` characters, keep 30 characters. -/
def normalizeTitle (t : String) : String :=
  String.mk (((jsToLowerCase t).toList.filter isLowerAlnum).take 30)

/-- `DataProcessor.generateProductKey`: md5 hex of normalized title prefix plus
`product.brand || ''`. -/
def generateProductKey (p : Product) : String :=
  md5Hex (normalizeTitle p.title ++ p.brand.getD "")

/-! ## `DataProcessor.deduplicateProducts` (dataProcessor.ts:23-51)

The JS `Map<string, Product>` is modelled as an insertion-ordered association
list: `set` on a present key updates the value in place (preserving position,
as JS `Map.set` does), otherwise appends; iteration and `values()` follow
insertion order. -/

/-- Insertion-ordered map entries. -/
abbrev PMap := List (String × Product)

/-- JS `Map.set`. -/
def mapSet : PMap → String → Product → PMap
  | [], k, v => [(k, v)]
  | (k', v') :: rest, k, v =>
    if k' = k then (k, v) :: rest else (k', v') :: mapSet rest k v

/-- The dedup criterion (lines 31-36): Jaccard similarity of the lower-cased
titles is at least the 0.8 threshold. -/
def isDupOf (p : Product) (e : String × Product) : Bool :=
  decide ((4 : ℚ) / 5 ≤ calculateSimilarity (jsToLowerCase p.title) (jsToLowerCase e.2.title))

/-- The first stored entry (in insertion order) the incoming product is a
duplicate of, as in the `for ... of uniqueProducts.entries()` loop. -/
def findSimilar (m : PMap) (p : Product) : Option (String × Product) :=
  m.find? (isDupOf p)

/-- One iteration of the `products.forEach` body. -/
def dedupStep (m : PMap) (p : Product) : PMap :=
  match findSimilar m p with
  | some (k, ex) => mapSet m k (mergeProducts ex p)
  | none => mapSet m (generateProductKey p) p

/-- `DataProcessor.deduplicateProducts`. -/
def deduplicateProducts (products : List Product) : List Product :=
  (products.foldl dedupStep []).map Prod.snd

/-! ## `DataProcessor.enrichProductData` (dataProcessor.ts:112-184) -/

/-- JS template rendering of a number (`${n}`) for the integral values the
pipeline produces. -/
def numStr (q : ℚ) : String := if q.den = 1 then toString q.num else toString q

/-- `DataProcessor.generatePros` (lines 142-162).  `product.features` is a
required array, hence always truthy in `product.features && ...`. -/
def generatePros (p : Product) : List String :=
  let pros :=
    (if 4.5 ≤ p.rating then ["Highly rated by customers"] else []) ++
    (if 1000 < p.reviewCount then ["Extensively reviewed and tested"] else []) ++
    (match p.discount with
     | some d => if d ≠ 0 ∧ 15 < d then ["Great value with " ++ numStr d ++ "% discount"] else []
     | none => []) ++
    (if 5 < p.features.length then ["Feature-rich product"] else []) ++
    (match p.brand with
     | some b => if b ≠ "" then ["Trusted " ++ b ++ " brand"] else []
     | none => [])
  if pros.isEmpty then ["Good value for money"] else pros

/-- `DataProcessor.generateCons` (lines 164-184). -/
def generateCons (p : Product) : List String :=
  let cons :=
    (if p.rating < 3.5 ∧ 0 < p.rating then ["Mixed customer reviews"] else []) ++
    (if p.reviewCount < 100 ∧ 0 < p.reviewCount then ["Limited customer feedback"] else []) ++
    (if 500 < p.price then ["Premium pricing"] else []) ++
    (if (match p.discount with | none => true | some d => decide (d = 0 ∨ d < 5)) then
      ["No significant discounts available"] else []) ++
    (if p.features.length < 3 then ["Basic feature set"] else [])
  if cons.isEmpty then ["May have better alternatives"] else cons

/-- The promotional tag of line 126. -/
def discountTag (d : ℚ) : String := numStr d ++ "% OFF - Limited Time"

/-- The promotional tag of line 133. -/
def topRatedTag : String := "Top Rated by Customers"

/-- Lines 116-118: fill pros when absent or empty
(`!enriched.pros || enriched.pros.length === 0`). -/
def enrichPros (e p : Product) : Product :=
  if (match e.pros with | none => true | some l => l.isEmpty) then
    { e with pros := some (generatePros p) } else e

/-- Lines 120-122: fill cons when absent or empty. -/
def enrichCons (e p : Product) : Product :=
  if (match e.cons with | none => true | some l => l.isEmpty) then
    { e with cons := some (generateCons p) } else e

/-- Lines 116-122: both fills, in source order. -/
def enrichProsCons (e p : Product) : Product := enrichCons (enrichPros e p) p

/-- Lines 124-129: prepend the discount tag when the discount is truthy and
exceeds 10. -/
def enrichDiscountTag (e : Product) : Product :=
  match e.discount with
  | some d => if d ≠ 0 ∧ 10 < d then { e with features := discountTag d :: e.features } else e
  | none => e

/-- Lines 131-136: prepend the top-rated tag when
`rating >= 4.5 && reviewCount > 1000`. -/
def enrichTopRated (e : Product) : Product :=
  if 4.5 ≤ e.rating ∧ 1000 < e.reviewCount then
    { e with features := topRatedTag :: e.features } else e

/-- The `products.map` body of `enrichProductData`: fill empty pros/cons, then
prepend the discount tag, then prepend the top-rated tag (in that order). -/
def enrichProduct (p : Product) : Product :=
  enrichTopRated (enrichDiscountTag (enrichProsCons p p))

/-- `DataProcessor.enrichProductData` (the surrounding `products.map`). -/
def enrichProductData (products : List Product) : List Product :=
  products.map enrichProduct

/-! ## `DataProcessor.calculateProductScore` (dataProcessor.ts:186-214) -/

/-- The price-tier component (lines 203-207): `product.price` must be truthy
(non-zero) for either tier bonus. -/
def priceTierBonus (price : ℚ) : ℚ :=
  if price ≠ 0 ∧ price < 100 then 5
  else if price ≠ 0 ∧ price < 300 then 3
  else 0

/-- The source component (lines 209-211): amazon source with truthy affiliate
link. -/
def sourceBonus (p : Product) : ℚ :=
  if p.source = Source.amazon ∧ strTruthy p.affiliateLink then 5 else 0

/-- `DataProcessor.calculateProductScore`.  `product.features` is a required
array, always truthy, so its guard never blocks. -/
def calculateProductScore (p : Product) : ℚ :=
  jsOr p.rating 0 * 20 +
  (if p.reviewCount ≠ 0 then min (p.reviewCount / 100) 10 else 0) +
  (match p.discount with | some d => if d ≠ 0 then d / 2 else 0 | none => 0) +
  min ((p.features.length : ℚ) * 2) 10 +
  priceTierBonus p.price +
  sourceBonus p

/-! ## `DataProcessor.aggregateProductData` (dataProcessor.ts:8-21) -/

/-- Stable descending insertion by score: an element is placed after every
already-placed element of greater or equal score (the behavior of the stable
JS `sort((a, b) => scoreB - scoreA)`). -/
def insertByScoreDesc (x : Product) : List Product → List Product
  | [] => [x]
  | y :: ys =>
    if calculateProductScore y < calculateProductScore x then x :: y :: ys
    else y :: insertByScoreDesc x ys

/-- Stable sort by score, descending. -/
def sortByScoreDesc (l : List Product) : List Product :=
  l.foldl (fun acc x => insertByScoreDesc x acc) []

/-- `DataProcessor.aggregateProductData`: concatenate the two source lists,
deduplicate, enrich, sort by score descending. -/
def aggregateProductData (googleResults amazonResults : List Product) : List Product :=
  sortByScoreDesc (enrichProductData (deduplicateProducts (googleResults ++ amazonResults)))

/-! ## The `POST /api/analyze` aggregation slice -/

/-- Caller-visible outcome of the aggregation step of the route handler. -/
inductive AnalyzeOutcome where
  | noResults
  | results (products : List Product)
deriving DecidableEq, Repr

/-- The aggregation-relevant slice of `POST` in the `/api/analyze` route
handler: after `Promise.allSettled` resolves the two adapters into candidate
lists (a failed adapter contributing `[]`), the handler returns the HTTP 404
"No products found" response when the combined candidate list is empty, and
otherwise proceeds to `aggregateProductData`. -/
def analyzeAggregation (products amazonProducts : List Product) : AnalyzeOutcome :=
  if (products ++ amazonProducts).length = 0 then AnalyzeOutcome.noResults
  else AnalyzeOutcome.results (aggregateProductData products amazonProducts)

/-! ## Cache client (dataProcessor.ts:216-268)

The external store is modelled as an insertion-ordered association list from
keys to `CacheEntry` values (JSON serialization of the entry round-trips and
is elided); `Date.now()` is passed explicitly as `now` in epoch milliseconds. -/

/-- `CacheEntry<T>` (src/types): payload, write time (epoch ms), ttl (s). -/
structure CacheEntry (T : Type) where
  data : T
  timestamp : ℚ
  ttl : ℚ
deriving DecidableEq, Repr

/-- The key-value store contents. -/
abbrev CacheStore (T : Type) := List (String × CacheEntry T)

/-- `redis.get`. -/
def storeGet {T : Type} (store : CacheStore T) (k : String) : Option (CacheEntry T) :=
  (store.find? fun e => decide (e.1 = k)).map Prod.snd

/-- `redis.del`. -/
def storeDel {T : Type} (store : CacheStore T) (k : String) : CacheStore T :=
  store.filter fun e => decide (e.1 ≠ k)

/-- `redis.setex` (value part; the store's own TTL eviction is not modelled —
the defensive re-check in `getCachedResults` is what the claims concern). -/
def storeSet {T : Type} : CacheStore T → String → CacheEntry T → CacheStore T
  | [], k, v => [(k, v)]
  | (k', v') :: rest, k, v =>
    if k' = k then (k, v) :: rest else (k', v') :: storeSet rest k v

/-- `DataProcessor.cacheResults` at time `now`: wraps `data` with
`timestamp = Date.now()` and writes it. -/
def cacheResults {T : Type} (now : ℚ) (cacheKey : String) (data : T) (ttl : ℚ)
    (store : CacheStore T) : CacheStore T :=
  storeSet store cacheKey ⟨data, now, ttl⟩

/-- `DataProcessor.getCachedResults` at time `now`: returns the payload and the
resulting store state; a missing key is a miss, and an entry with
`now - timestamp > ttl * 1000` is treated as a miss and deleted. -/
def getCachedResults {T : Type} (now : ℚ) (cacheKey : String)
    (store : CacheStore T) : Option T × CacheStore T :=
  match storeGet store cacheKey with
  | none => (none, store)
  | some entry =>
    if entry.ttl * 1000 < now - entry.timestamp then (none, storeDel store cacheKey)
    else (some entry.data, store)

/-! ## `DataProcessor.generateCacheKey` (dataProcessor.ts:261-268)

The `data` argument is an arbitrary JS value; modelled as a JSON tree whose
object fields are in insertion order, which is the order `JSON.stringify`
serializes them in. -/

/-- JSON values (object fields carry their insertion order). -/
inductive Json where
  | str (s : String)
  | num (n : Int)
  | bool (b : Bool)
  | null
  | arr (elems : List Json)
  | obj (fields : List (String × Json))
deriving Repr

/-- JSON string escaping as `JSON.stringify` performs it. -/
def jsonEscapeChar (c : Char) : String :=
  if c = '"' then "\\\""
  else if c = '\\' then "\\\\"
  else if c = Char.ofNat 10 then "\\n"
  else if c = Char.ofNat 13 then "\\r"
  else if c = Char.ofNat 9 then "\\t"
  else if c = Char.ofNat 8 then "\\b"
  else if c = Char.ofNat 12 then "\\f"
  else if c.toNat < 32 then "\\u00" ++ byteHex c.toNat
  else String.singleton c

/-- A JSON string literal. -/
def quoteJson (s : String) : String :=
  "\"" ++ String.join (s.toList.map jsonEscapeChar) ++ "\""

/-- Comma-join rendered pieces. -/
def commaJoin : List String → String
  | [] => ""
  | [x] => x
  | x :: xs => x ++ "," ++ commaJoin xs

mutual

/-- `JSON.stringify`: objects serialize their fields in insertion order. -/
def jsonStringify : Json → String
  | Json.str s => quoteJson s
  | Json.num n => toString n
  | Json.bool b => if b then "true" else "false"
  | Json.null => "null"
  | Json.arr xs => "[" ++ commaJoin (jsonStringifyElems xs) ++ "]"
  | Json.obj fs => "\x7b" ++ commaJoin (jsonStringifyFields fs) ++ "\x7d"
termination_by structural j => j

/-- Rendered array elements, in order. -/
def jsonStringifyElems : List Json → List String
  | [] => []
  | x :: xs => jsonStringify x :: jsonStringifyElems xs
termination_by structural l => l

/-- Rendered `"key":value` fields, in insertion order. -/
def jsonStringifyFields : List (String × Json) → List String
  | [] => []
  | (k, v) :: fs => (quoteJson k ++ ":" ++ jsonStringify v) :: jsonStringifyFields fs
termination_by structural l => l

end

/-- `DataProcessor.generateCacheKey`: sha256 hex of `JSON.stringify(data)`,
truncated to 16 hex characters, under the `cache:` namespace. -/
def generateCacheKey (data : Json) : String :=
  "cache:" ++ (sha256Hex (jsonStringify data)).take 16

/-! ### Field-preservation lemmas for the merge blocks -/

@[simp] theorem mergeRating_title (m p2 : Product) : (mergeRating m p2).title = m.title := by
  unfold mergeRating
  repeat' split
  all_goals rfl

@[simp] theorem mergeRating_brand (m p2 : Product) : (mergeRating m p2).brand = m.brand := by
  unfold mergeRating
  repeat' split
  all_goals rfl

@[simp] theorem mergeRating_features (m p2 : Product) : (mergeRating m p2).features = m.features := by
  unfold mergeRating
  repeat' split
  all_goals rfl

@[simp] theorem mergeRating_description (m p2 : Product) : (mergeRating m p2).description = m.description := by
  unfold mergeRating
  repeat' split
  all_goals rfl

@[simp] theorem mergeRating_images (m p2 : Product) : (mergeRating m p2).images = m.images := by
  unfold mergeRating
  repeat' split
  all_goals rfl

@[simp] theorem mergeRating_affiliateLink (m p2 : Product) : (mergeRating m p2).affiliateLink = m.affiliateLink := by
  unfold mergeRating
  repeat' split
  all_goals rfl

@[simp] theorem mergeRating_asin (m p2 : Product) : (mergeRating m p2).asin = m.asin := by
  unfold mergeRating
  repeat' split
  all_goals rfl

@[simp] theorem mergeRating_price (m p2 : Product) : (mergeRating m p2).price = m.price := by
  unfold mergeRating
  repeat' split
  all_goals rfl

@[simp] theorem mergeRating_originalPrice (m p2 : Product) : (mergeRating m p2).originalPrice = m.originalPrice := by
  unfold mergeRating
  repeat' split
  all_goals rfl

@[simp] theorem mergeRating_discount (m p2 : Product) : (mergeRating m p2).discount = m.discount := by
  unfold mergeRating
  repeat' split
  all_goals rfl

@[simp] theorem mergeRating_source (m p2 : Product) : (mergeRating m p2).source = m.source := by
  unfold mergeRating
  repeat' split
  all_goals rfl

@[simp] theorem mergeFeatures_title (m p2 : Product) : (mergeFeatures m p2).title = m.title := by
  unfold mergeFeatures
  repeat' split
  all_goals rfl

@[simp] theorem mergeFeatures_brand (m p2 : Product) : (mergeFeatures m p2).brand = m.brand := by
  unfold mergeFeatures
  repeat' split
  all_goals rfl

@[simp] theorem mergeFeatures_description (m p2 : Product) : (mergeFeatures m p2).description = m.description := by
  unfold mergeFeatures
  repeat' split
  all_goals rfl

@[simp] theorem mergeFeatures_images (m p2 : Product) : (mergeFeatures m p2).images = m.images := by
  unfold mergeFeatures
  repeat' split
  all_goals rfl

@[simp] theorem mergeFeatures_affiliateLink (m p2 : Product) : (mergeFeatures m p2).affiliateLink = m.affiliateLink := by
  unfold mergeFeatures
  repeat' split
  all_goals rfl

@[simp] theorem mergeFeatures_asin (m p2 : Product) : (mergeFeatures m p2).asin = m.asin := by
  unfold mergeFeatures
  repeat' split
  all_goals rfl

@[simp] theorem mergeFeatures_price (m p2 : Product) : (mergeFeatures m p2).price = m.price := by
  unfold mergeFeatures
  repeat' split
  all_goals rfl

@[simp] theorem mergeFeatures_originalPrice (m p2 : Product) : (mergeFeatures m p2).originalPrice = m.originalPrice := by
  unfold mergeFeatures
  repeat' split
  all_goals rfl

@[simp] theorem mergeFeatures_discount (m p2 : Product) : (mergeFeatures m p2).discount = m.discount := by
  unfold mergeFeatures
  repeat' split
  all_goals rfl

@[simp] theorem mergeFeatures_source (m p2 : Product) : (mergeFeatures m p2).source = m.source := by
  unfold mergeFeatures
  repeat' split
  all_goals rfl

@[simp] theorem mergeFeatures_rating (m p2 : Product) : (mergeFeatures m p2).rating = m.rating := by
  unfold mergeFeatures
  repeat' split
  all_goals rfl

@[simp] theorem mergeFeatures_reviewCount (m p2 : Product) : (mergeFeatures m p2).reviewCount = m.reviewCount := by
  unfold mergeFeatures
  repeat' split
  all_goals rfl

@[simp] theorem mergeDescription_title (m p2 : Product) : (mergeDescription m p2).title = m.title := by
  unfold mergeDescription
  repeat' split
  all_goals rfl

@[simp] theorem mergeDescription_brand (m p2 : Product) : (mergeDescription m p2).brand = m.brand := by
  unfold mergeDescription
  repeat' split
  all_goals rfl

@[simp] theorem mergeDescription_features (m p2 : Product) : (mergeDescription m p2).features = m.features := by
  unfold mergeDescription
  repeat' split
  all_goals rfl

@[simp] theorem mergeDescription_images (m p2 : Product) : (mergeDescription m p2).images = m.images := by
  unfold mergeDescription
  repeat' split
  all_goals rfl

@[simp] theorem mergeDescription_affiliateLink (m p2 : Product) : (mergeDescription m p2).affiliateLink = m.affiliateLink := by
  unfold mergeDescription
  repeat' split
  all_goals rfl

@[simp] theorem mergeDescription_asin (m p2 : Product) : (mergeDescription m p2).asin = m.asin := by
  unfold mergeDescription
  repeat' split
  all_goals rfl

@[simp] theorem mergeDescription_price (m p2 : Product) : (mergeDescription m p2).price = m.price := by
  unfold mergeDescription
  repeat' split
  all_goals rfl

@[simp] theorem mergeDescription_originalPrice (m p2 : Product) : (mergeDescription m p2).originalPrice = m.originalPrice := by
  unfold mergeDescription
  repeat' split
  all_goals rfl

@[simp] theorem mergeDescription_discount (m p2 : Product) : (mergeDescription m p2).discount = m.discount := by
  unfold mergeDescription
  repeat' split
  all_goals rfl

@[simp] theorem mergeDescription_source (m p2 : Product) : (mergeDescription m p2).source = m.source := by
  unfold mergeDescription
  repeat' split
  all_goals rfl

@[simp] theorem mergeImages_title (m p2 : Product) : (mergeImages m p2).title = m.title := by
  unfold mergeImages
  repeat' split
  all_goals rfl

@[simp] theorem mergeImages_brand (m p2 : Product) : (mergeImages m p2).brand = m.brand := by
  unfold mergeImages
  repeat' split
  all_goals rfl

@[simp] theorem mergeImages_features (m p2 : Product) : (mergeImages m p2).features = m.features := by
  unfold mergeImages
  repeat' split
  all_goals rfl

@[simp] theorem mergeImages_description (m p2 : Product) : (mergeImages m p2).description = m.description := by
  unfold mergeImages
  repeat' split
  all_goals rfl

@[simp] theorem mergeImages_affiliateLink (m p2 : Product) : (mergeImages m p2).affiliateLink = m.affiliateLink := by
  unfold mergeImages
  repeat' split
  all_goals rfl

@[simp] theorem mergeImages_asin (m p2 : Product) : (mergeImages m p2).asin = m.asin := by
  unfold mergeImages
  repeat' split
  all_goals rfl

@[simp] theorem mergeImages_price (m p2 : Product) : (mergeImages m p2).price = m.price := by
  unfold mergeImages
  repeat' split
  all_goals rfl

@[simp] theorem mergeImages_originalPrice (m p2 : Product) : (mergeImages m p2).originalPrice = m.originalPrice := by
  unfold mergeImages
  repeat' split
  all_goals rfl

@[simp] theorem mergeImages_discount (m p2 : Product) : (mergeImages m p2).discount = m.discount := by
  unfold mergeImages
  repeat' split
  all_goals rfl

@[simp] theorem mergeImages_source (m p2 : Product) : (mergeImages m p2).source = m.source := by
  unfold mergeImages
  repeat' split
  all_goals rfl

@[simp] theorem mergeAffiliate_title (m p2 : Product) : (mergeAffiliate m p2).title = m.title := by
  unfold mergeAffiliate
  repeat' split
  all_goals rfl

@[simp] theorem mergeAffiliate_brand (m p2 : Product) : (mergeAffiliate m p2).brand = m.brand := by
  unfold mergeAffiliate
  repeat' split
  all_goals rfl

@[simp] theorem mergeAffiliate_features (m p2 : Product) : (mergeAffiliate m p2).features = m.features := by
  unfold mergeAffiliate
  repeat' split
  all_goals rfl

@[simp] theorem mergeAffiliate_description (m p2 : Product) : (mergeAffiliate m p2).description = m.description := by
  unfold mergeAffiliate
  repeat' split
  all_goals rfl

@[simp] theorem mergeAffiliate_images (m p2 : Product) : (mergeAffiliate m p2).images = m.images := by
  unfold mergeAffiliate
  repeat' split
  all_goals rfl

@[simp] theorem mergeAffiliate_price (m p2 : Product) : (mergeAffiliate m p2).price = m.price := by
  unfold mergeAffiliate
  repeat' split
  all_goals rfl

@[simp] theorem mergeAffiliate_originalPrice (m p2 : Product) : (mergeAffiliate m p2).originalPrice = m.originalPrice := by
  unfold mergeAffiliate
  repeat' split
  all_goals rfl

@[simp] theorem mergeAffiliate_discount (m p2 : Product) : (mergeAffiliate m p2).discount = m.discount := by
  unfold mergeAffiliate
  repeat' split
  all_goals rfl

@[simp] theorem mergeAffiliate_source (m p2 : Product) : (mergeAffiliate m p2).source = m.source := by
  unfold mergeAffiliate
  repeat' split
  all_goals rfl

@[simp] theorem mergePrice_title (m p2 : Product) : (mergePrice m p2).title = m.title := by
  unfold mergePrice
  repeat' split
  all_goals rfl

@[simp] theorem mergePrice_brand (m p2 : Product) : (mergePrice m p2).brand = m.brand := by
  unfold mergePrice
  repeat' split
  all_goals rfl

@[simp] theorem mergePrice_features (m p2 : Product) : (mergePrice m p2).features = m.features := by
  unfold mergePrice
  repeat' split
  all_goals rfl

@[simp] theorem mergePrice_description (m p2 : Product) : (mergePrice m p2).description = m.description := by
  unfold mergePrice
  repeat' split
  all_goals rfl

@[simp] theorem mergePrice_images (m p2 : Product) : (mergePrice m p2).images = m.images := by
  unfold mergePrice
  repeat' split
  all_goals rfl

@[simp] theorem mergePrice_affiliateLink (m p2 : Product) : (mergePrice m p2).affiliateLink = m.affiliateLink := by
  unfold mergePrice
  repeat' split
  all_goals rfl

@[simp] theorem mergePrice_asin (m p2 : Product) : (mergePrice m p2).asin = m.asin := by
  unfold mergePrice
  repeat' split
  all_goals rfl

@[simp] theorem mergePrice_source (m p2 : Product) : (mergePrice m p2).source = m.source := by
  unfold mergePrice
  repeat' split
  all_goals rfl

@[simp] theorem mergePrice_rating (m p2 : Product) : (mergePrice m p2).rating = m.rating := by
  unfold mergePrice
  repeat' split
  all_goals rfl

@[simp] theorem mergePrice_reviewCount (m p2 : Product) : (mergePrice m p2).reviewCount = m.reviewCount := by
  unfold mergePrice
  repeat' split
  all_goals rfl

/-! ### Characterization lemmas for the changing merge fields and the
enrichment steps -/

theorem mergeFeatures_features (m p2 : Product) :
    (mergeFeatures m p2).features =
      if m.features.length < p2.features.length then jsSetDedup (m.features ++ p2.features)
      else m.features := by
  unfold mergeFeatures
  split <;> rfl

theorem mergePrice_price (m p2 : Product) :
    (mergePrice m p2).price =
      if p2.price ≠ 0 ∧ (m.price = 0 ∨ p2.price < m.price) then p2.price else m.price := by
  unfold mergePrice
  split <;> rfl

theorem mergePrice_originalPrice (m p2 : Product) :
    (mergePrice m p2).originalPrice =
      if p2.price ≠ 0 ∧ (m.price = 0 ∨ p2.price < m.price) then p2.originalPrice
      else m.originalPrice := by
  unfold mergePrice
  split <;> rfl

theorem mergePrice_discount (m p2 : Product) :
    (mergePrice m p2).discount =
      if p2.price ≠ 0 ∧ (m.price = 0 ∨ p2.price < m.price) then p2.discount
      else m.discount := by
  unfold mergePrice
  split <;> rfl

@[simp] theorem mergeProducts_title (p1 p2 : Product) :
    (mergeProducts p1 p2).title = p1.title := by
  simp [mergeProducts]

@[simp] theorem mergeProducts_brand (p1 p2 : Product) :
    (mergeProducts p1 p2).brand = p1.brand := by
  simp [mergeProducts]

theorem mergeProducts_features (p1 p2 : Product) :
    (mergeProducts p1 p2).features =
      if p1.features.length < p2.features.length then jsSetDedup (p1.features ++ p2.features)
      else p1.features := by
  simp [mergeProducts, mergeFeatures_features]

theorem mergeProducts_price (p1 p2 : Product) :
    (mergeProducts p1 p2).price =
      if p2.price ≠ 0 ∧ (p1.price = 0 ∨ p2.price < p1.price) then p2.price else p1.price := by
  simp [mergeProducts, mergePrice_price]

theorem mergeProducts_originalPrice (p1 p2 : Product) :
    (mergeProducts p1 p2).originalPrice =
      if p2.price ≠ 0 ∧ (p1.price = 0 ∨ p2.price < p1.price) then p2.originalPrice
      else p1.originalPrice := by
  simp [mergeProducts, mergePrice_originalPrice]

theorem mergeProducts_discount (p1 p2 : Product) :
    (mergeProducts p1 p2).discount =
      if p2.price ≠ 0 ∧ (p1.price = 0 ∨ p2.price < p1.price) then p2.discount
      else p1.discount := by
  simp [mergeProducts, mergePrice_discount]

@[simp] theorem enrichPros_features (e p : Product) :
    (enrichPros e p).features = e.features := by
  unfold enrichPros
  split <;> rfl

@[simp] theorem enrichCons_features (e p : Product) :
    (enrichCons e p).features = e.features := by
  unfold enrichCons
  split <;> rfl

@[simp] theorem enrichProsCons_features (e p : Product) :
    (enrichProsCons e p).features = e.features := by
  unfold enrichProsCons
  simp

@[simp] theorem enrichPros_discount (e p : Product) :
    (enrichPros e p).discount = e.discount := by
  unfold enrichPros
  split <;> rfl

@[simp] theorem enrichCons_discount (e p : Product) :
    (enrichCons e p).discount = e.discount := by
  unfold enrichCons
  split <;> rfl

@[simp] theorem enrichProsCons_discount (e p : Product) :
    (enrichProsCons e p).discount = e.discount := by
  unfold enrichProsCons
  simp

@[simp] theorem enrichPros_rating (e p : Product) :
    (enrichPros e p).rating = e.rating := by
  unfold enrichPros
  split <;> rfl

@[simp] theorem enrichCons_rating (e p : Product) :
    (enrichCons e p).rating = e.rating := by
  unfold enrichCons
  split <;> rfl

@[simp] theorem enrichProsCons_rating (e p : Product) :
    (enrichProsCons e p).rating = e.rating := by
  unfold enrichProsCons
  simp

@[simp] theorem enrichPros_reviewCount (e p : Product) :
    (enrichPros e p).reviewCount = e.reviewCount := by
  unfold enrichPros
  split <;> rfl

@[simp] theorem enrichCons_reviewCount (e p : Product) :
    (enrichCons e p).reviewCount = e.reviewCount := by
  unfold enrichCons
  split <;> rfl

@[simp] theorem enrichProsCons_reviewCount (e p : Product) :
    (enrichProsCons e p).reviewCount = e.reviewCount := by
  unfold enrichProsCons
  simp

@[simp] theorem enrichDiscountTag_rating (e : Product) :
    (enrichDiscountTag e).rating = e.rating := by
  unfold enrichDiscountTag
  repeat' split
  all_goals rfl

@[simp] theorem enrichDiscountTag_reviewCount (e : Product) :
    (enrichDiscountTag e).reviewCount = e.reviewCount := by
  unfold enrichDiscountTag
  repeat' split
  all_goals rfl

theorem enrichDiscountTag_features (e : Product) :
    (enrichDiscountTag e).features =
      match e.discount with
      | some d => if d ≠ 0 ∧ 10 < d then discountTag d :: e.features else e.features
      | none => e.features := by
  unfold enrichDiscountTag
  repeat' split
  all_goals rfl

theorem enrichTopRated_features (e : Product) :
    (enrichTopRated e).features =
      if 4.5 ≤ e.rating ∧ 1000 < e.reviewCount then topRatedTag :: e.features
      else e.features := by
  unfold enrichTopRated
  split <;> rfl

/-! ## Spec-side score formulas (for claim C7) -/

/-- The Scorer formula exactly as the specification words it: the price-tier
bonus is conditioned only on the price thresholds (not on price truthiness)
and the source bonus only on the presence of an affiliate link. -/
def specProductScore (p : Product) : ℚ :=
  p.rating * 20 + min (p.reviewCount / 100) 10 + (p.discount.getD 0) / 2 +
  min ((p.features.length : ℚ) * 2) 10 +
  (if p.price < 100 then 5 else if p.price < 300 then 3 else 0) +
  (if p.source = Source.amazon ∧ p.affiliateLink.isSome then 5 else 0)

/-- The spec formula with the corrections the implementation forces: both
price tiers additionally require a non-zero price, and the source bonus a
non-empty affiliate link. -/
def specProductScoreAmended (p : Product) : ℚ :=
  p.rating * 20 + min (p.reviewCount / 100) 10 + (p.discount.getD 0) / 2 +
  min ((p.features.length : ℚ) * 2) 10 + priceTierBonus p.price + sourceBonus p

/-- C8: when every source adapter returns an empty list, the route handler
signals the explicit no-results outcome (HTTP 404) rather than returning a
silent empty list, and the aggregation of the empty inputs is itself empty. -/
theorem claim_C8 :
    analyzeAggregation [] [] = AnalyzeOutcome.noResults ∧
    aggregateProductData [] [] = [] :=
  ⟨rfl, rfl⟩

/-- C7, counterexample: on a product whose price is 0 (the Normalizer default)
the implemented score is 0 but the spec formula awards the `< 100` price-tier
bonus of 5, so the implemented score does not equal the spec formula. -/
theorem claim_C7_counterexample :
    calculateProductScore defaultProduct ≠ specProductScore defaultProduct := by
  have h1 : calculateProductScore defaultProduct = 0 := by
    simp only [calculateProductScore, defaultProduct, jsOr_zero_right, priceTierBonus,
      sourceBonus, strTruthy]
    norm_num
  have h2 : specProductScore defaultProduct = 5 := by
    simp only [specProductScore, defaultProduct]
    norm_num
  rw [h1, h2]
  norm_num

/-- C7, amended: the computed score equals
`rating*20 + min(reviewCount/100,10) + (discount ?? 0)/2 + min(features*2,10)
+ price-tier-bonus + source-bonus` where both price tiers additionally require
a non-zero price and the source bonus requires a non-empty affiliate link on
the amazon source; raising the rating from 3 to 4 with all else equal strictly
increases the score, and raising the price from 50 to 500 does not increase
the price-tier bonus. -/
theorem claim_C7 (p : Product) :
    calculateProductScore p = specProductScoreAmended p ∧
    calculateProductScore { p with rating := 3 } < calculateProductScore { p with rating := 4 } ∧
    priceTierBonus 500 ≤ priceTierBonus 50 := by
  refine ⟨?_, ?_, ?_⟩
  · have hrc : (if p.reviewCount ≠ 0 then min (p.reviewCount / 100) 10 else 0) =
        min (p.reviewCount / 100) 10 := by
      by_cases h : p.reviewCount = 0
      · rw [if_neg (by simp [h])]
        rw [h]
        norm_num
      · rw [if_pos h]
    have hd : (match p.discount with | some d => if d ≠ 0 then d / 2 else 0 | none => 0) =
        (p.discount.getD 0) / 2 := by
      cases p.discount with
      | none => norm_num
      | some d =>
        by_cases h0 : d = 0
        · simp [h0]
        · simp [h0]
    rw [calculateProductScore, specProductScoreAmended, jsOr_zero_right, hrc, hd]
  · have key : ∀ r : ℚ, r ≠ 0 → calculateProductScore { p with rating := r } =
        r * 20 + ((if p.reviewCount ≠ 0 then min (p.reviewCount / 100) 10 else 0) +
          (match p.discount with | some d => if d ≠ 0 then d / 2 else 0 | none => 0) +
          min ((p.features.length : ℚ) * 2) 10 + priceTierBonus p.price + sourceBonus p) := by
      intro r hr
      simp only [calculateProductScore, jsOr, sourceBonus]
      rw [if_neg hr]
      ring
    rw [key 3 (by norm_num), key 4 (by norm_num)]
    have h34 : (3 : ℚ) * 20 < 4 * 20 := by norm_num
    linarith
  · have h500 : priceTierBonus 500 = 0 := by
      rw [priceTierBonus, if_neg (by norm_num), if_neg (by norm_num)]
    have h50 : priceTierBonus 50 = 5 := by
      rw [priceTierBonus, if_pos (by norm_num)]
    rw [h500, h50]
    norm_num

/-- Concrete products for the C4 pricing-triple analysis. -/
def c4Base : Product :=
  { defaultProduct with price := 0, originalPrice := some 100, discount := some 7 }

/-- The other record for the C4 counterexample: non-zero price that is not
lower than the base's. -/
def c4Other : Product :=
  { defaultProduct with price := 5, originalPrice := some 9, discount := some 3 }

/-- C4, counterexample: with base price 0 and other price 5, the other's price
is not strictly lower than the base's, yet the merge adopts the other's whole
pricing triple — the claimed "if and only if other's price is non-zero and
strictly lower" fails in the only-if direction. -/
theorem claim_C4_counterexample :
    ¬ (((mergeProducts c4Base c4Other).price = c4Other.price ∧
        (mergeProducts c4Base c4Other).originalPrice = c4Other.originalPrice ∧
        (mergeProducts c4Base c4Other).discount = c4Other.discount) ↔
      (c4Other.price ≠ 0 ∧ c4Other.price < c4Base.price)) := by
  intro hiff
  have hadopt : (mergeProducts c4Base c4Other).price = c4Other.price ∧
      (mergeProducts c4Base c4Other).originalPrice = c4Other.originalPrice ∧
      (mergeProducts c4Base c4Other).discount = c4Other.discount := by
    have hcond : c4Other.price ≠ 0 ∧ (c4Base.price = 0 ∨ c4Other.price < c4Base.price) := by
      constructor
      · show (5 : ℚ) ≠ 0
        norm_num
      · left
        rfl
    exact ⟨by rw [mergeProducts_price, if_pos hcond],
      by rw [mergeProducts_originalPrice, if_pos hcond],
      by rw [mergeProducts_discount, if_pos hcond]⟩
  have hlt : c4Other.price < c4Base.price := (hiff.mp hadopt).2
  have : (5 : ℚ) < 0 := hlt
  norm_num at this

/-- C4, amended: the merge adopts the other's price, originalPrice and
discount together (atomically) exactly when the other's price is non-zero and
the base's price is zero or greater than the other's; otherwise all three
pricing fields stay the base's. -/
theorem claim_C4 (A B : Product) :
    ((B.price ≠ 0 ∧ (A.price = 0 ∨ B.price < A.price)) →
      (mergeProducts A B).price = B.price ∧
      (mergeProducts A B).originalPrice = B.originalPrice ∧
      (mergeProducts A B).discount = B.discount) ∧
    (¬ (B.price ≠ 0 ∧ (A.price = 0 ∨ B.price < A.price)) →
      (mergeProducts A B).price = A.price ∧
      (mergeProducts A B).originalPrice = A.originalPrice ∧
      (mergeProducts A B).discount = A.discount) := by
  constructor
  · intro h
    exact ⟨by rw [mergeProducts_price, if_pos h],
      by rw [mergeProducts_originalPrice, if_pos h],
      by rw [mergeProducts_discount, if_pos h]⟩
  · intro h
    exact ⟨by rw [mergeProducts_price, if_neg h],
      by rw [mergeProducts_originalPrice, if_neg h],
      by rw [mergeProducts_discount, if_neg h]⟩

/-- C4, witness: the amended characterization applied to the concrete pair
with base price 0 and other price 5 — the other's triple is adopted. -/
theorem claim_C4_witness :
    (mergeProducts c4Base c4Other).price = c4Other.price ∧
    (mergeProducts c4Base c4Other).originalPrice = c4Other.originalPrice ∧
    (mergeProducts c4Base c4Other).discount = c4Other.discount :=
  (claim_C4 c4Base c4Other).1 ⟨by show (5 : ℚ) ≠ 0; norm_num, Or.inl rfl⟩

/-- C6: a cached entry read at time `now` is returned unchanged (a hit, store
untouched) when `now - timestamp ≤ ttl * 1000`, and is a miss with the stale
entry deleted when `now - timestamp > ttl * 1000`. -/
theorem claim_C6 {T : Type} (store : CacheStore T) (k : String) (e : CacheEntry T) (now : ℚ)
    (hget : storeGet store k = some e) :
    (now - e.timestamp ≤ e.ttl * 1000 → getCachedResults now k store = (some e.data, store)) ∧
    (e.ttl * 1000 < now - e.timestamp → getCachedResults now k store = (none, storeDel store k)) := by
  constructor
  · intro h
    rw [getCachedResults, hget]
    simp only [if_neg (not_lt.mpr h)]
  · intro h
    rw [getCachedResults, hget]
    simp only [if_pos h]

/-- C6, witness: an entry written at time 0 with `ttl = 1` second is a hit
with the original payload at 999 ms and a miss (entry deleted) at 1001 ms. -/
theorem claim_C6_witness :
    getCachedResults (999 : ℚ) "k" [("k", ({ data := 7, timestamp := 0, ttl := 1 } : CacheEntry Nat))] =
      (some 7, [("k", { data := 7, timestamp := 0, ttl := 1 })]) ∧
    getCachedResults (1001 : ℚ) "k" [("k", ({ data := 7, timestamp := 0, ttl := 1 } : CacheEntry Nat))] =
      (none, []) := by
  constructor
  · exact (claim_C6 [("k", ({ data := 7, timestamp := 0, ttl := 1 } : CacheEntry Nat))]
      "k" { data := 7, timestamp := 0, ttl := 1 } 999 rfl).1 (by norm_num)
  · have h := (claim_C6 [("k", ({ data := 7, timestamp := 0, ttl := 1 } : CacheEntry Nat))]
      "k" { data := 7, timestamp := 0, ttl := 1 } 1001 rfl).2 (by norm_num)
    simpa [storeDel] using h

/-- Concrete conflict-free products for C2: identical except for their
(equal-length, different) feature lists. -/
def c2A : Product := { defaultProduct with features := ["x"] }

/-- The other C2 counterexample product. -/
def c2B : Product := { defaultProduct with features := ["y"] }

/-- C2, counterexample: `c2A` and `c2B` agree on every field except features
(so there is no affiliate or price conflict), yet neither merge direction
produces the union feature set and the two directions disagree: equal-length
feature lists are never replaced, so each direction keeps its own base list. -/
theorem claim_C2_counterexample :
    (mergeProducts c2A c2B).features.toFinset ≠ (mergeProducts c2B c2A).features.toFinset ∧
    (mergeProducts c2A c2B).features.toFinset ≠ (c2A.features ++ c2B.features).toFinset := by
  have hAB : (mergeProducts c2A c2B).features = ["x"] := by
    rw [mergeProducts_features]
    rfl
  have hBA : (mergeProducts c2B c2A).features = ["y"] := by
    rw [mergeProducts_features]
    rfl
  rw [hAB, hBA]
  constructor
  · intro h
    have : "x" ∈ (["y"] : List String).toFinset := h ▸ (by simp)
    simp at this
  · intro h
    have : "y" ∈ (["x"] : List String).toFinset := h ▸ (by simp [c2A, c2B, defaultProduct])
    simp at this

/-- C2, amended: the merge replaces the base feature list by the
duplicate-free union only when the other's list is strictly longer, otherwise
the base list is kept; consequently the merged feature set is direction
independent whenever the two products' feature sets are equal (in particular
for identical lists), but not for arbitrary conflict-free pairs. -/
theorem claim_C2 (A B : Product) (h : A.features.toFinset = B.features.toFinset) :
    (mergeProducts A B).features.toFinset = (mergeProducts B A).features.toFinset := by
  rw [mergeProducts_features, mergeProducts_features]
  split_ifs <;>
    simp [jsSetDedup_toFinset, List.toFinset_append, h]

/-- C2, witness: the amended commutativity at concrete products whose feature
lists are reorderings of each other. -/
theorem claim_C2_witness :
    (mergeProducts { defaultProduct with features := ["x", "y"] }
        { defaultProduct with features := ["y", "x"] }).features.toFinset =
      (mergeProducts { defaultProduct with features := ["y", "x"] }
        { defaultProduct with features := ["x", "y"] }).features.toFinset :=
  claim_C2 _ _ (by
    ext a
    simp
    tauto)

/-- C9: the Enricher prepends the discount tag when the discount is truthy and
exceeds 10, prepends the top-rated tag when `rating ≥ 4.5` and
`reviewCount > 1000`, and runs the discount check first — so when both
conditions hold the discount tag is inserted first and the top-rated tag ends
up in front of it. -/
theorem claim_C9 (p : Product) (d : ℚ) :
    (p.discount = some d → 10 < d → 4.5 ≤ p.rating → 1000 < p.reviewCount →
      (enrichProduct p).features = topRatedTag :: discountTag d :: p.features) ∧
    (p.discount = some d → 10 < d → ¬ (4.5 ≤ p.rating ∧ 1000 < p.reviewCount) →
      (enrichProduct p).features = discountTag d :: p.features) ∧
    ((p.discount = none ∨ (p.discount = some d ∧ d ≤ 10)) →
      4.5 ≤ p.rating → 1000 < p.reviewCount →
      (enrichProduct p).features = topRatedTag :: p.features) := by
  refine ⟨?_, ?_, ?_⟩
  · intro hd h10 hr hrc
    rw [enrichProduct, enrichTopRated_features]
    rw [if_pos (by simp only [enrichDiscountTag_rating, enrichProsCons_rating,
      enrichDiscountTag_reviewCount, enrichProsCons_reviewCount]; exact ⟨hr, hrc⟩)]
    rw [enrichDiscountTag_features]
    simp only [enrichProsCons_discount, enrichProsCons_features, hd]
    rw [if_pos ⟨by positivity, h10⟩]
  · intro hd h10 hnot
    rw [enrichProduct, enrichTopRated_features]
    rw [if_neg (by simp only [enrichDiscountTag_rating, enrichProsCons_rating,
      enrichDiscountTag_reviewCount, enrichProsCons_reviewCount]; exact hnot)]
    rw [enrichDiscountTag_features]
    simp only [enrichProsCons_discount, enrichProsCons_features, hd]
    rw [if_pos ⟨by positivity, h10⟩]
  · intro hdisj hr hrc
    rw [enrichProduct, enrichTopRated_features]
    rw [if_pos (by simp only [enrichDiscountTag_rating, enrichProsCons_rating,
      enrichDiscountTag_reviewCount, enrichProsCons_reviewCount]; exact ⟨hr, hrc⟩)]
    rw [enrichDiscountTag_features]
    rcases hdisj with hnone | ⟨hsome, hle⟩
    · simp only [enrichProsCons_discount, enrichProsCons_features, hnone]
    · simp only [enrichProsCons_discount, enrichProsCons_features, hsome]
      rw [if_neg (by intro hc; exact absurd hc.2 (not_lt.mpr hle))]

/-- Concrete product for the C9 witness. -/
def c9P : Product :=
  { defaultProduct with
    discount := some 20
    rating := 4.6
    reviewCount := 2000
    features := ["f"] }

/-- C9, witness: with discount 20, rating 4.6 and 2000 reviews, the enriched
feature list starts with the top-rated tag followed by the discount tag. -/
theorem claim_C9_witness :
    (enrichProduct c9P).features = topRatedTag :: discountTag 20 :: ["f"] :=
  (claim_C9 c9P 20).1 rfl (by norm_num)
    (by show (4.5 : ℚ) ≤ 4.6; norm_num)
    (by show (1000 : ℚ) < 2000; norm_num)

/-- C3, counterexample: the two request shapes `{a:1, b:2}` and `{b:2, a:1}`
are structurally equal (same fields with the same values, constructed in a
different order — their field lists are permutations), yet `generateCacheKey`
gives them different keys, because `JSON.stringify` serializes fields in
insertion order rather than a canonical order. -/
theorem claim_C3_counterexample :
    ([("a", Json.num 1), ("b", Json.num 2)] : List (String × Json)).Perm
      [("b", Json.num 2), ("a", Json.num 1)] ∧
    generateCacheKey (Json.obj [("a", Json.num 1), ("b", Json.num 2)]) ≠
      generateCacheKey (Json.obj [("b", Json.num 2), ("a", Json.num 1)]) := by
  constructor
  · exact List.Perm.swap _ _ _
  · decide

/-- C3, amended: `generateCacheKey` is a pure deterministic function of the
serialized form of its input — any two inputs with the same `JSON.stringify`
rendering (in particular, equal shapes serialized with the same field order)
receive the same `cache:`-prefixed truncated digest; shapes whose fields are
ordered differently, and distinct contents, are not guaranteed distinct keys. -/
theorem claim_C3 (x y : Json) (h : jsonStringify x = jsonStringify y) :
    generateCacheKey x = generateCacheKey y := by
  rw [generateCacheKey, generateCacheKey, h]

/-- C3, witness: the amended determinism at a concrete shape. -/
theorem claim_C3_witness :
    generateCacheKey (Json.obj [("a", Json.num 1)]) =
      generateCacheKey (Json.obj [("a", Json.num 1)]) :=
  claim_C3 (Json.obj [("a", Json.num 1)]) (Json.obj [("a", Json.num 1)]) rfl

/-! ### Concrete-evaluation helpers for the Deduplicator -/

theorem calculateSimilarity_eq_div (s t : String) (a b : ℕ)
    (ha : (jsSetDedup ((jsSetDedup (jsSplitWs s)).filter
      fun x => decide (x ∈ jsSetDedup (jsSplitWs t)))).length = a)
    (hb : (jsSetDedup (jsSetDedup (jsSplitWs s) ++ jsSetDedup (jsSplitWs t))).length = b) :
    calculateSimilarity s t = (a : ℚ) / (b : ℚ) := by
  simp only [calculateSimilarity]
  rw [ha, hb]

theorem isDupOf_eq_false {p : Product} {e : String × Product}
    (h : calculateSimilarity (jsToLowerCase p.title) (jsToLowerCase e.2.title) < 4 / 5) :
    isDupOf p e = false := by
  rw [isDupOf, decide_eq_false_iff_not]
  exact not_le.mpr h

theorem dedup_pair (A B : Product) (h : isDupOf B (generateProductKey A, A) = false) :
    deduplicateProducts [A, B] =
      (mapSet [(generateProductKey A, A)] (generateProductKey B) B).map Prod.snd := by
  have hfs : findSimilar [(generateProductKey A, A)] B = none := by
    rw [findSimilar]
    simp [List.find?, h]
  rw [deduplicateProducts]
  show ((dedupStep (dedupStep [] A) B).map Prod.snd) = _
  have h1 : dedupStep [] A = [(generateProductKey A, A)] := rfl
  rw [h1, dedupStep, hfs]

/-- The first record of the spec's end-to-end scenario. -/
def c1Google : Product :=
  { defaultProduct with
    title := "Sony Headphones XM5"
    price := 398
    source := Source.google
    rating := 0 }

/-- The second record of the spec's end-to-end scenario. -/
def c1Amazon : Product :=
  { defaultProduct with
    title := "Sony Headphones XM5 Wireless"
    price := 350
    source := Source.amazon
    rating := 4.4
    affiliateLink := some "aff://x" }

theorem c1_sim : calculateSimilarity (jsToLowerCase c1Amazon.title)
    (jsToLowerCase c1Google.title) = 3 / 4 := by
  have h := calculateSimilarity_eq_div (jsToLowerCase c1Amazon.title)
    (jsToLowerCase c1Google.title) 3 4 (by decide) (by decide)
  rw [h]
  norm_num

theorem c1_dedup : deduplicateProducts [c1Google, c1Amazon] = [c1Google, c1Amazon] := by
  have hdup : isDupOf c1Amazon (generateProductKey c1Google, c1Google) = false :=
    isDupOf_eq_false (by rw [c1_sim]; norm_num)
  rw [dedup_pair c1Google c1Amazon hdup]
  have hkey : generateProductKey c1Google ≠ generateProductKey c1Amazon := by decide
  rw [mapSet, if_neg hkey]
  rfl

/-- C1, counterexample: the spec's end-to-end scenario does not collapse the
two Sony records into one product — their title-token Jaccard similarity is
3/4, below the 0.8 threshold, so `deduplicateProducts` keeps two records. -/
theorem claim_C1_counterexample :
    (deduplicateProducts [c1Google, c1Amazon]).length ≠ 1 := by
  rw [c1_dedup]
  norm_num

/-- C1, amended: on the scenario's two records the title-token Jaccard
similarity is exactly 3/4 < 0.8, so the two records are not judged
duplicates: no merge happens and `deduplicateProducts` returns both records
unchanged, in input order. -/
theorem claim_C1 :
    calculateSimilarity (jsToLowerCase c1Amazon.title) (jsToLowerCase c1Google.title) = 3 / 4 ∧
    deduplicateProducts [c1Google, c1Amazon] = [c1Google, c1Amazon] :=
  ⟨c1_sim, c1_dedup⟩

/-- A title whose first 30 alphanumeric characters exhaust the other C10
title, followed by further tokens. -/
def c10A : Product :=
  { defaultProduct with title := "abcdefghijklmnopqrstuvwxyz0123 extra words here" }

/-- A title equal to the first 30 alphanumeric characters of `c10A.title`. -/
def c10B : Product :=
  { defaultProduct with title := "abcdefghijklmnopqrstuvwxyz0123" }

/-- C10: there are products with distinct titles whose token sets have Jaccard
similarity below 0.8 (so they are not judged duplicates) but whose dedup keys
coincide (same 30-character normalized title prefix and same brand); for every
such pair the later product silently overwrites the earlier one's map entry
without a merge, so `deduplicateProducts [A, B] = [B]`. -/
theorem claim_C10 :
    (calculateSimilarity (jsToLowerCase c10A.title) (jsToLowerCase c10B.title) < 4 / 5 ∧
      normalizeTitle c10A.title = normalizeTitle c10B.title ∧
      c10A.brand = c10B.brand ∧ c10A.title ≠ c10B.title) ∧
    (∀ A B : Product,
      calculateSimilarity (jsToLowerCase A.title) (jsToLowerCase B.title) < 4 / 5 →
      normalizeTitle A.title = normalizeTitle B.title → A.brand = B.brand →
      deduplicateProducts [A, B] = [B]) := by
  constructor
  · refine ⟨?_, by decide, rfl, by decide⟩
    have h := calculateSimilarity_eq_div (jsToLowerCase c10A.title)
      (jsToLowerCase c10B.title) 1 4 (by decide) (by decide)
    rw [h]
    norm_num
  · intro A B hsim hnorm hbrand
    have hBA : calculateSimilarity (jsToLowerCase B.title) (jsToLowerCase A.title) < 4 / 5 := by
      rw [calculateSimilarity_comm]
      exact hsim
    have hdup : isDupOf B (generateProductKey A, A) = false := isDupOf_eq_false hBA
    rw [dedup_pair A B hdup]
    have hkey : generateProductKey A = generateProductKey B := by
      rw [generateProductKey, generateProductKey, hnorm, hbrand]
    rw [mapSet, if_pos hkey]
    rfl

/-- C10, witness: the overwrite at the concrete colliding pair. -/
theorem claim_C10_witness : deduplicateProducts [c10A, c10B] = [c10B] := by
  refine claim_C10.2 c10A c10B ?_ (by decide) rfl
  have h := calculateSimilarity_eq_div (jsToLowerCase c10A.title)
    (jsToLowerCase c10B.title) 1 4 (by decide) (by decide)
  rw [h]
  norm_num

/-! ## Idempotence of `deduplicateProducts` (claim C5)

Invariant: in the map the Deduplicator builds, every stored key is the
generated key of its stored product, keys are distinct, and stored titles are
pairwise below the similarity threshold.  A merge preserves the anchor's title
and brand (hence its key and all similarities), so the invariant survives
every step; a map satisfying it is a fixed point of the fold. -/

/-- The two titles are below the dedup similarity threshold. -/
def NotSimT (t1 t2 : String) : Prop :=
  calculateSimilarity (jsToLowerCase t1) (jsToLowerCase t2) < 4 / 5

/-- The Deduplicator's map invariant. -/
def dedupInv (m : PMap) : Prop :=
  (∀ e ∈ m, e.1 = generateProductKey e.2) ∧
  (m.map Prod.fst).Nodup ∧
  List.Pairwise NotSimT (m.map fun e => e.2.title)

theorem NotSimT_symm {s t : String} (h : NotSimT s t) : NotSimT t s := by
  rw [NotSimT, calculateSimilarity_comm]
  exact h

theorem isDupOf_false_iff (p : Product) (e : String × Product) :
    isDupOf p e = false ↔ NotSimT p.title e.2.title := by
  rw [isDupOf, decide_eq_false_iff_not, not_le, NotSimT]

theorem mergeProducts_key (ex p : Product) :
    generateProductKey (mergeProducts ex p) = generateProductKey ex := by
  rw [generateProductKey, generateProductKey, mergeProducts_title, mergeProducts_brand]

theorem mapSet_not_mem (m : PMap) (k : String) (v : Product)
    (h : k ∉ m.map Prod.fst) : mapSet m k v = m ++ [(k, v)] := by
  induction m with
  | nil => rfl
  | cons e rest ih =>
    obtain ⟨k', v'⟩ := e
    simp only [List.map_cons, List.mem_cons, not_or] at h
    rw [mapSet, if_neg (fun he => h.1 he.symm), ih h.2]
    rfl

theorem mapSet_replace (m₁ m₂ : PMap) (k : String) (v₀ v : Product)
    (h : k ∉ m₁.map Prod.fst) :
    mapSet (m₁ ++ (k, v₀) :: m₂) k v = m₁ ++ (k, v) :: m₂ := by
  induction m₁ with
  | nil => simp [mapSet]
  | cons e m₁ ih =>
    obtain ⟨k', v'⟩ := e
    simp only [List.map_cons, List.mem_cons, not_or] at h
    rw [List.cons_append, mapSet, if_neg (fun he => h.1 he.symm), ih h.2, List.cons_append]

theorem mem_decomp (m : PMap) (k : String) (x : Product)
    (hmem : (k, x) ∈ m) (hnd : (m.map Prod.fst).Nodup) :
    ∃ m₁ m₂, m = m₁ ++ (k, x) :: m₂ ∧ k ∉ m₁.map Prod.fst ∧ k ∉ m₂.map Prod.fst := by
  obtain ⟨m₁, m₂, rfl⟩ := List.append_of_mem hmem
  refine ⟨m₁, m₂, rfl, ?_, ?_⟩ <;>
  · simp only [List.map_append, List.map_cons] at hnd
    have hk := (List.nodup_cons.mp (List.nodup_middle.mp hnd)).1
    simp only [List.mem_append, not_or] at hk
    tauto

theorem key_mem_entry (m : PMap) (k : String) (h : k ∈ m.map Prod.fst) :
    ∃ v, (k, v) ∈ m := by
  rcases List.mem_map.mp h with ⟨e, he, rfl⟩
  exact ⟨e.2, he⟩

theorem findSimilar_none_forall {m : PMap} {p : Product} (h : findSimilar m p = none) :
    ∀ e ∈ m, NotSimT p.title e.2.title := by
  intro e he
  rw [findSimilar] at h
  have := List.find?_eq_none.mp h e he
  exact (isDupOf_false_iff p e).mp (by simpa using this)

theorem findSimilar_some_mem {m : PMap} {p : Product} {k : String} {ex : Product}
    (h : findSimilar m p = some (k, ex)) : (k, ex) ∈ m :=
  List.mem_of_find?_eq_some h

theorem dedupInv_nil : dedupInv [] := ⟨by simp, by simp, by simp [dedupInv]⟩

theorem dedupStep_of_some {m : PMap} {p : Product} {k : String} {ex : Product}
    (h : findSimilar m p = some (k, ex)) :
    dedupStep m p = mapSet m k (mergeProducts ex p) := by
  rw [dedupStep, h]

theorem dedupStep_of_none {m : PMap} {p : Product} (h : findSimilar m p = none) :
    dedupStep m p = mapSet m (generateProductKey p) p := by
  rw [dedupStep, h]

theorem dedupInv_step (m : PMap) (p : Product) (h : dedupInv m) :
    dedupInv (dedupStep m p) := by
  obtain ⟨h1, h2, h3⟩ := h
  cases hfs : findSimilar m p with
  | some e =>
    obtain ⟨k, ex⟩ := e
    have hmem : (k, ex) ∈ m := findSimilar_some_mem hfs
    obtain ⟨m₁, m₂, hm, hk1, hk2⟩ := mem_decomp m k ex hmem h2
    rw [dedupStep_of_some hfs]
    subst hm
    rw [mapSet_replace _ _ _ _ _ hk1]
    refine ⟨?_, ?_, ?_⟩
    · intro e he
      simp only [List.mem_append, List.mem_cons] at he
      rcases he with he | he | he
      · exact h1 e (by simp [he])
      · rw [he]
        show k = generateProductKey (mergeProducts ex p)
        rw [mergeProducts_key]
        exact h1 (k, ex) hmem
      · exact h1 e (by simp [he])
    · have hkeys : (m₁ ++ (k, mergeProducts ex p) :: m₂).map Prod.fst =
          (m₁ ++ (k, ex) :: m₂).map Prod.fst := by simp
      rw [hkeys]
      exact h2
    · have htitles : ((m₁ ++ (k, mergeProducts ex p) :: m₂).map fun e => e.2.title) =
          ((m₁ ++ (k, ex) :: m₂).map fun e => e.2.title) := by
        simp [mergeProducts_title]
      rw [htitles]
      exact h3
  | none =>
    have hall : ∀ e ∈ m, NotSimT p.title e.2.title := findSimilar_none_forall hfs
    by_cases hkm : generateProductKey p ∈ m.map Prod.fst
    · obtain ⟨v₀, hv₀⟩ := key_mem_entry m _ hkm
      obtain ⟨m₁, m₂, hm, hk1, hk2⟩ := mem_decomp m _ v₀ hv₀ h2
      have hallm := hall
      rw [dedupStep_of_none hfs]
      subst hm
      rw [mapSet_replace _ _ _ _ _ hk1]
      refine ⟨?_, ?_, ?_⟩
      · intro e he
        simp only [List.mem_append, List.mem_cons] at he
        rcases he with he | he | he
        · exact h1 e (by simp [he])
        · rw [he]
        · exact h1 e (by simp [he])
      · have hkeys : (m₁ ++ (generateProductKey p, p) :: m₂).map Prod.fst =
            (m₁ ++ (generateProductKey p, v₀) :: m₂).map Prod.fst := by simp
        rw [hkeys]
        exact h2
      · simp only [List.map_append, List.map_cons] at h3 ⊢
        rw [List.pairwise_append] at h3 ⊢
        obtain ⟨hp1, hp2, hcross⟩ := h3
        rw [List.pairwise_cons] at hp2
        obtain ⟨hv₀m₂, hpm₂⟩ := hp2
        refine ⟨hp1, ?_, ?_⟩
        · rw [List.pairwise_cons]
          refine ⟨?_, hpm₂⟩
          intro t ht
          rcases List.mem_map.mp ht with ⟨e, hem, rfl⟩
          exact hallm e (by simp [hem])
        · intro a ha b hb
          rcases List.mem_cons.mp hb with rfl | hb
          · rcases List.mem_map.mp ha with ⟨e, hem, rfl⟩
            exact NotSimT_symm (hallm e (by simp [hem]))
          · exact hcross a ha b (List.mem_cons_of_mem _ hb)
    · rw [dedupStep_of_none hfs, mapSet_not_mem _ _ _ hkm]
      refine ⟨?_, ?_, ?_⟩
      · intro e he
        rcases List.mem_append.mp he with he | he
        · exact h1 e he
        · rw [List.mem_singleton] at he
          rw [he]
      · simp only [List.map_append, List.map_cons, List.map_nil]
        rw [List.nodup_append]
        refine ⟨h2, by simp, ?_⟩
        intro a ha hb
        rw [List.mem_singleton] at hb
        subst hb
        exact hkm ha
      · simp only [List.map_append, List.map_cons, List.map_nil]
        rw [List.pairwise_append]
        refine ⟨h3, by simp, ?_⟩
        intro a ha b hb
        rw [List.mem_singleton] at hb
        subst hb
        rcases List.mem_map.mp ha with ⟨e, hem, rfl⟩
        exact NotSimT_symm (hall e hem)

theorem dedupInv_foldl (S : List Product) (m : PMap) (h : dedupInv m) :
    dedupInv (S.foldl dedupStep m) := by
  induction S generalizing m with
  | nil => exact h
  | cons p S ih => exact ih _ (dedupInv_step m p h)

theorem foldl_dedupStep_fixed (suf pre : PMap) (h : dedupInv (pre ++ suf)) :
    List.foldl dedupStep pre (suf.map Prod.snd) = pre ++ suf := by
  induction suf generalizing pre with
  | nil => simp
  | cons e suf ih =>
    obtain ⟨k, v⟩ := e
    obtain ⟨h1, h2, h3⟩ := h
    have hfs : findSimilar pre v = none := by
      rw [findSimilar]
      apply List.find?_eq_none.mpr
      intro e he
      have hsim : NotSimT e.2.title v.title := by
        have h3' := h3
        simp only [List.map_append, List.map_cons] at h3'
        rw [List.pairwise_append] at h3'
        exact h3'.2.2 e.2.title (List.mem_map.mpr ⟨e, he, rfl⟩) v.title (List.mem_cons_self _ _)
      have : isDupOf v e = false := (isDupOf_false_iff v e).mpr (NotSimT_symm hsim)
      simp [this]
    have hkey : k = generateProductKey v := h1 (k, v) (by simp)
    have hknotin : k ∉ pre.map Prod.fst := by
      intro hk
      simp only [List.map_append, List.map_cons] at h2
      exact (List.nodup_cons.mp (List.nodup_middle.mp h2)).1 (by simp [hk])
    have hstep : dedupStep pre v = pre ++ [(k, v)] := by
      rw [dedupStep_of_none hfs, ← hkey, mapSet_not_mem _ _ _ hknotin]
    rw [List.map_cons, List.foldl_cons, hstep]
    have hassoc : (pre ++ [(k, v)]) ++ suf = pre ++ (k, v) :: suf := by simp
    have hre := ih (pre ++ [(k, v)]) (by rw [hassoc]; exact ⟨h1, h2, h3⟩)
    rw [hre, hassoc]

/-- C5: deduplication is idempotent — the representatives a full pass leaves
behind have pairwise-distinct generated keys and pairwise similarity below
the 0.8 threshold (merging preserves the anchor's title, brand and key), so a
second pass re-inserts every representative unchanged. -/
theorem claim_C5 (S : List Product) :
    deduplicateProducts (deduplicateProducts S) = deduplicateProducts S := by
  have hInv : dedupInv (S.foldl dedupStep []) := dedupInv_foldl S [] dedupInv_nil
  have hfix := foldl_dedupStep_fixed (S.foldl dedupStep []) []
    (by simpa using hInv)
  calc deduplicateProducts (deduplicateProducts S)
      = (((S.foldl dedupStep []).map Prod.snd).foldl dedupStep []).map Prod.snd := rfl
    _ = ([] ++ S.foldl dedupStep []).map Prod.snd := by rw [hfix]
    _ = deduplicateProducts S := by simp [deduplicateProducts]
